import Mathlib

/-!
Verification of the cep-lookup race/lookup orchestration engine.

The definitions below are a shallow embedding of the TypeScript sources of
the `@eusilvio/cep-lookup` package, in particular the authoritative core in
`packages/cep-lookup/src` (the `CepLookup` class with retries, typed errors
and logger, the strict `validateCep`, `sanitizeAddress`, the `InMemoryCache`
with TTL and max-size, the provider strategy objects, and the `dddByState`
table).  Strings are Lean `String`s; character-level work goes through
`String.data : List Char`.  Timestamps and durations are integers (JS numbers
hold exact integers in the relevant range).
-/

set_option autoImplicit false

namespace CepSpec

/-! ## JS string primitives -/

/-- Whitespace recognised by the JavaScript `String.prototype.trim`:
ASCII whitespace plus NBSP, BOM and the Unicode line separators. -/
def jsWhitespace (c : Char) : Bool :=
  c = ' ' || c = '\t' || c = '\n' || c = '\r' ||
  c = (Char.ofNat 11) || c = (Char.ofNat 12) ||
  c = (Char.ofNat 0xA0) || c = (Char.ofNat 0xFEFF) ||
  c = (Char.ofNat 0x2028) || c = (Char.ofNat 0x2029)

/-- List-level trim: drop `jsWhitespace` from the front and from the back. -/
def trimChars (l : List Char) : List Char :=
  ((l.dropWhile jsWhitespace).reverse.dropWhile jsWhitespace).reverse

/-- Model of the JavaScript `value.trim()` used by `sanitizeAddress`. -/
def jsTrim (s : String) : String :=
  String.mk (trimChars s.data)

/-- Model of the JavaScript `cep.replace("-", "")`: `String.replace` with a
plain-string pattern replaces only the first occurrence. -/
def removeFirstHyphen : List Char → List Char
  | [] => []
  | c :: cs => if c = '-' then cs else c :: removeFirstHyphen cs

/-! ## Data model -/

/-- Standardized address object (`Address` in `types.ts`).  The six string
fields are the interface as declared under `src`; `ibge` and `ddd` are the
optional enrichment fields of the spec data model (their declaration ships
with the enrichment code, which is not part of the sources under `src`; the
enrichment tests read them).  An absent optional property is `none`. -/
structure Address where
  cep : String
  state : String
  city : String
  neighborhood : String
  street : String
  service : String
  ibge : Option String := none
  ddd : Option String := none
  deriving Repr, DecidableEq

/-- Model of `sanitizeAddress`: the JS function copies the object and trims
every property whose value is a string.  Present optional properties are
strings, so they are trimmed too; absent ones are skipped. -/
def sanitizeAddress (a : Address) : Address :=
  { cep := jsTrim a.cep
    state := jsTrim a.state
    city := jsTrim a.city
    neighborhood := jsTrim a.neighborhood
    street := jsTrim a.street
    service := jsTrim a.service
    ibge := a.ibge.map jsTrim
    ddd := a.ddd.map jsTrim }

/-- Error taxonomy of `errors.ts`, together with the two aggregate shapes
that appear at runtime: `aggregate` models a JS `AggregateError` produced by
`Promise.any`, and `allFailed` models `AllProvidersFailedError` with its
`errors` list.  `generic` stands for a plain `Error` with a message (network
errors, provider `transform` throws such as "CEP not found"). -/
inductive CepError where
  | validation (cep : String)
  | rateLimit (requests : Nat) (per : Int)
  | timeout (provider : String) (ms : Nat)
  | generic (msg : String)
  | aggregate (errs : List CepError)
  | allFailed (errs : List CepError)
  deriving Repr

/-! ## Validator -/

/-- Test of the anchored regex `^(\d{8}|\d{5}-\d{3})$` from `validateCep`:
either eight digits, or five digits, a hyphen and three digits (`\d` is
`[0-9]`, which is `Char.isDigit`). -/
def cepRegexTest (l : List Char) : Bool :=
  (l.length = 8 && l.all Char.isDigit) ||
  (l.length = 9 && (l.take 5).all Char.isDigit && l.get? 5 = some '-' &&
    (l.drop 6).all Char.isDigit)

/-- Model of `validateCep`: test the regex, throw `CepValidationError` on
failure, return the input with the (single possible) hyphen removed. -/
def validateCep (cep : String) : Except CepError String :=
  if cepRegexTest cep.data then
    .ok (String.mk (removeFirstHyphen cep.data))
  else
    .error (.validation cep)

/-- Shape demanded by the spec, written from its words: the input is eight
contiguous digits, or five digits followed by a hyphen followed by three
digits.  This is the specification side of the refinement for the validator
claim; `cepRegexTest` is the code side. -/
def SpecCepShape (l : List Char) : Prop :=
  (l.length = 8 ∧ ∀ c ∈ l, c.isDigit) ∨
  (∃ a b, l = a ++ '-' :: b ∧ a.length = 5 ∧ (∀ c ∈ a, c.isDigit) ∧
    b.length = 3 ∧ (∀ c ∈ b, c.isDigit))

/-! ## Static state-to-DDD table -/

/-- Table `dddByState` from `data/ddd-by-state.ts`, in source order: the DDD
of each federal unit capital, keyed by the two-letter state abbreviation. -/
def dddByState : List (String × String) :=
  [("AC", "68"), ("AL", "82"), ("AM", "92"), ("AP", "96"), ("BA", "71"),
   ("CE", "85"), ("DF", "61"), ("ES", "27"), ("GO", "62"), ("MA", "98"),
   ("MG", "31"), ("MS", "67"), ("MT", "65"), ("PA", "91"), ("PB", "83"),
   ("PE", "81"), ("PI", "86"), ("PR", "41"), ("RJ", "21"), ("RN", "84"),
   ("RO", "69"), ("RR", "95"), ("RS", "51"), ("SC", "48"), ("SE", "79"),
   ("SP", "11"), ("TO", "63")]

/-- Lookup in the `dddByState` record: `dddByState[state]`, `undefined`
becoming `none`. -/
def dddLookup (state : String) : Option String :=
  dddByState.lookup state

/-- Modelled from the spec: the enrichment step applied after a provider
transform is not among the sources under `src` (only the `dddByState` table
and the enrichment tests are), so it is written here from the spec words:
if the Address is missing a `ddd` field it is filled from the static
state-to-DDD lookup table keyed by the two-letter state abbreviation;
existing provider-supplied `ddd`/`ibge` values are never overwritten. -/
def enrichAddress (a : Address) : Address :=
  match a.ddd with
  | none => { a with ddd := dddLookup a.state }
  | some _ => a

/-- The 27 Brazilian federal units, as enumerated by the enrichment test. -/
def federalUnits : List String :=
  ["AC", "AL", "AM", "AP", "BA", "CE", "DF", "ES", "GO",
   "MA", "MG", "MS", "MT", "PA", "PB", "PE", "PI", "PR",
   "RJ", "RN", "RO", "RR", "RS", "SC", "SE", "SP", "TO"]

/-! ## InMemoryCache

The `InMemoryCache` of `cache.ts` wraps a JS `Map` whose iteration order is
insertion order; it is modelled as a list of keyed entries in insertion
order.  `ttl = none` and `maxSize = none` stand for the `Infinity` defaults.
`Date.now()` is passed in explicitly as `now`. -/

/-- A cache entry: `value` plus the `Date.now()` recorded by `set`. -/
structure CacheEntry where
  value : Address
  timestamp : Int
  deriving Repr, DecidableEq

/-- State of one `InMemoryCache` instance. -/
structure CacheState where
  entries : List (String × CacheEntry)
  ttl : Option Int := none
  maxSize : Option Nat := none
  deriving Repr, DecidableEq

/-- Model of `Map.delete` on a key (keys are unique in a `Map`). -/
def eraseCacheKey (key : String) (es : List (String × CacheEntry)) :
    List (String × CacheEntry) :=
  es.filter (fun e => ¬ e.1 = key)

/-- Model of `InMemoryCache.get`: a hit whose age exceeds a finite `ttl` is
deleted lazily and reported as a miss.  Returns the result together with the
possibly updated cache state. -/
def cacheGet (c : CacheState) (key : String) (now : Int) :
    Option Address × CacheState :=
  match c.entries.lookup key with
  | none => (none, c)
  | some entry =>
    match c.ttl with
    | some t =>
      if now - entry.timestamp > t then
        (none, { c with entries := eraseCacheKey key c.entries })
      else
        (some entry.value, c)
    | none => (some entry.value, c)

/-- Model of `InMemoryCache.set`: delete an existing entry for the key,
evict the oldest-inserted entry when at capacity, then append the new entry
(appending is the JS `Map.set` of a fresh key). -/
def cacheSet (c : CacheState) (key : String) (v : Address) (now : Int) :
    CacheState :=
  let es := if (c.entries.lookup key).isSome then eraseCacheKey key c.entries
            else c.entries
  let es := match c.maxSize with
    | some m => if es.length ≥ m then es.tail else es
    | none => es
  { c with entries := es ++ [(key, ⟨v, now⟩)] }

/-! ## Rate limiter -/

/-- Constructor option `rateLimit` of `CepLookupOptions`. -/
structure RateLimitOptions where
  requests : Nat
  per : Int
  deriving Repr, DecidableEq

/-- Outcome of `checkRateLimit`: the error thrown, if any, and the value of
`this.requestTimestamps` after the call (the method reassigns the pruned
list before it decides whether to throw). -/
structure RateCheck where
  rejected : Option CepError
  timestamps : List Int

/-- Model of `CepLookup.checkRateLimit`: with no `rateLimit` configured it
does nothing; otherwise it prunes `requestTimestamps` down to those strictly
inside the window `(now - per, now]`, throws `RateLimitError` when the
pruned count already reaches `requests`, and records `now` otherwise. -/
def checkRateLimit (opt : Option RateLimitOptions) (timestamps : List Int)
    (now : Int) : RateCheck :=
  match opt with
  | none => ⟨none, timestamps⟩
  | some rl =>
    let pruned := timestamps.filter (fun ts => ts > now - rl.per)
    if pruned.length ≥ rl.requests then
      ⟨some (.rateLimit rl.requests rl.per), pruned⟩
    else
      ⟨none, pruned ++ [now]⟩

/-! ## Provider race

The race of `CepLookup._lookupFromProviders` is modelled as a discrete-event
computation.  A provider is abstracted by the composite behaviour of
`fetcher(url, signal)` followed by `provider.transform`: it settles a fixed
`latency` milliseconds after being dispatched, either fulfilling with the
transformed (pre-sanitization) address or rejecting with an error.  The
event-loop facts used, each fixed by the source order of the JS code:

* the primary provider is dispatched at time 0; the stagger timer is
  registered before the primary dispatch (the `secondaryPromise` executor
  runs first), so when the stagger delay equals the primary settle time the
  remaining providers are still dispatched;
* a per-provider `timeout` races the fetch; its timer is registered before
  the fetch starts, so a tie goes to the timeout; a `timeout` of `0` is
  falsy in JS and disables the mechanism;
* when the primary rejects before the stagger timer fires, `triggerOthers`
  dispatches the remaining providers immediately;
* `Promise.any` fulfills with the first fulfillment; timers with an equal
  deadline fire in registration order, so ties are broken toward the
  primary and then toward list order among the simultaneously dispatched
  remaining providers;
* on first fulfillment the shared `AbortController` is aborted, cancelling
  every dispatched request that has not yet settled (the fetcher is assumed
  to observe the signal, as the default `fetch` does, so a cancelled branch
  never runs its success continuation);
* when every dispatched provider rejects, the outer
  `Promise.any([primaryPromise, secondaryPromise])` rejects with an
  `AggregateError` whose list holds the primary rejection followed by the
  `secondaryPromise` rejection, the latter being itself the
  `AggregateError` of the remaining providers in list order; the catch
  block wraps that list in `AllProvidersFailedError`.
-/

/-- Behaviour of one provider during one race attempt: its display name,
optional `timeout` (ms), latency from dispatch to settlement of the fetch,
and the settlement of fetch-plus-transform. -/
structure ProviderSpec where
  name : String
  timeout : Option Nat := none
  latency : Nat
  outcome : Except CepError Address
  deriving Repr

/-- Time from dispatch to settlement of a provider branch, the per-provider
timeout racing the fetch (a `timeout` of `0` is falsy and ignored; an exact
tie goes to the timeout, whose timer is registered first). -/
def settleTime (p : ProviderSpec) : Nat :=
  match p.timeout with
  | some t => if t ≠ 0 ∧ t ≤ p.latency then t else p.latency
  | none => p.latency

/-- Settlement of a provider branch: `ProviderTimeoutError` when the timeout
fires first, the fetch-plus-transform outcome otherwise. -/
def settleOutcome (p : ProviderSpec) : Except CepError Address :=
  match p.timeout with
  | some t => if t ≠ 0 ∧ t ≤ p.latency then .error (.timeout p.name t)
              else p.outcome
  | none => p.outcome

/-- One dispatched branch of the race: provider name, absolute settlement
time and settlement value. -/
structure Branch where
  name : String
  time : Nat
  outcome : Except CepError Address

/-- First fulfillment among the dispatched branches, scanning in
registration order and keeping the strictly earliest settlement, which is
exactly the `Promise.any` winner under the tie-breaking described above. -/
def firstFulfilled (bs : List Branch) : Option Branch :=
  bs.foldl
    (fun best b =>
      if b.outcome.isOk then
        match best with
        | none => some b
        | some w => if b.time < w.time then some b else some w
      else best)
    none

/-- Error of a settled branch (only meaningful when it rejected). -/
def branchError (p : ProviderSpec) : CepError :=
  match settleOutcome p with
  | .error e => e
  | .ok _ => .generic ""

/-- Result of one call to `_lookupFromProviders`, together with the
observable race facts the claims speak about. -/
structure RaceOutput where
  result : Except CepError Address
  winnerName : Option String
  dispatchedNames : List String
  cancelledNames : List String

/-- Whether the remaining providers are dispatched at all: they are unless
the primary fulfills strictly before the stagger timer fires (a primary
rejection triggers them immediately; on an exact tie the stagger timer,
registered first, fires first). -/
def othersDispatched (p₀ : ProviderSpec) (stagger : Nat) : Bool :=
  !(settleOutcome p₀).isOk || stagger ≤ settleTime p₀

/-- Absolute time at which the remaining providers are dispatched, when
they are: at the stagger deadline, or earlier upon a primary rejection. -/
def othersDispatchTime (p₀ : ProviderSpec) (stagger : Nat) : Nat :=
  if (settleOutcome p₀).isOk then stagger else min (settleTime p₀) stagger

/-- The branches dispatched by the stagger mechanism (the first batch of
the remaining providers), primary first, the remaining providers (when
dispatched) in list order at their common dispatch time. -/
def raceBranches (p₀ : ProviderSpec) (rest : List ProviderSpec)
    (stagger : Nat) : List Branch :=
  ⟨p₀.name, settleTime p₀, settleOutcome p₀⟩ ::
    (if othersDispatched p₀ stagger then
      rest.map (fun p =>
        ⟨p.name, othersDispatchTime p₀ stagger + settleTime p, settleOutcome p⟩)
     else [])

/-- Whether `triggerOthers` runs a SECOND time.  `triggerOthers` has no
run-once guard: when the primary rejects after the stagger timer has
already fired (`stagger ≤ settleTime p₀`; on the exact tie the timer,
registered first, fires first), the primary's catch calls it again —
`clearTimeout` on the spent handle is a no-op — and, provided the race has
not already resolved (no first-batch fulfillment strictly before the
primary rejection, otherwise the shared signal is already aborted and the
`signal.aborted` check returns), every remaining provider's fetcher is
invoked a second time. -/
def retriggered (p₀ : ProviderSpec) (rest : List ProviderSpec)
    (stagger : Nat) : Bool :=
  !(settleOutcome p₀).isOk && stagger ≤ settleTime p₀ &&
    (match firstFulfilled (raceBranches p₀ rest stagger) with
     | some w => settleTime p₀ ≤ w.time
     | none => true)

/-- The second batch of secondary branches dispatched by the unguarded
re-trigger, at the primary rejection time. -/
def secondBatch (p₀ : ProviderSpec) (rest : List ProviderSpec)
    (stagger : Nat) : List Branch :=
  if retriggered p₀ rest stagger then
    rest.map (fun p => ⟨p.name, settleTime p₀ + settleTime p, settleOutcome p⟩)
  else []

/-- Largest settle latency among a list of providers (time from a batch
dispatch to the settlement of its slowest member). -/
def maxSettle (rest : List ProviderSpec) : Nat :=
  rest.foldl (fun m p => max m (settleTime p)) 0

/-- Discrete-event model of `CepLookup._lookupFromProviders` for one
attempt.  With a single provider the branch is awaited directly and its
rejection propagates unwrapped.  With several providers the primary runs
from time 0 and the remaining providers are dispatched together, either
when the stagger timer fires or immediately upon a primary rejection; a
primary rejecting after the stagger timer fired re-invokes every remaining
provider's fetcher a second time (`triggerOthers` is unguarded).  Because
provider behaviour is deterministic here, each second-batch branch settles
the same way as its first-batch twin but strictly later (its dispatch is
later), so the settled result, the winner and the failure shape are
decided by the primary and the first batch alone: the first fulfillment
wins and every dispatched request still in flight at the settling time —
second batch included — is aborted through the shared signal; if every
dispatched branch rejects, the inner `Promise.any` over the first batch
settles the `secondaryPromise` first, and the rejections are wrapped as
`AllProvidersFailedError` of the primary error followed by the nested
`AggregateError` of the remaining providers in list order. -/
def raceProviders (ps : List ProviderSpec) (stagger : Nat) : RaceOutput :=
  match ps with
  | [] =>
    -- `sortedProviders[0]` is `undefined`; `provider.buildUrl` throws.
    ⟨.error (.generic "TypeError"), none, [], []⟩
  | [p] =>
    match settleOutcome p with
    | .ok a => ⟨.ok (sanitizeAddress a), some p.name, [p.name], []⟩
    | .error e => ⟨.error e, none, [p.name], []⟩
  | p₀ :: q :: qs =>
    let branches := raceBranches p₀ (q :: qs) stagger
    let extra := secondBatch p₀ (q :: qs) stagger
    match firstFulfilled branches with
    | some w =>
      match w.outcome with
      | .ok a =>
        ⟨.ok (sanitizeAddress a), some w.name, (branches ++ extra).map Branch.name,
          ((branches.filter (fun b => ¬ b.name = w.name ∧ w.time ≤ b.time) ++
            extra.filter (fun b => w.time ≤ b.time)).map Branch.name)⟩
      | .error _ => ⟨.error (.generic "unreachable"), none, [], []⟩
    | none =>
      ⟨.error (.allFailed
          [branchError p₀, .aggregate ((q :: qs).map branchError)]),
        none, (branches ++ extra).map Branch.name,
        (extra.filter (fun b =>
          max (settleTime p₀)
            (othersDispatchTime p₀ stagger + maxSettle (q :: qs)) ≤ b.time)).map
          Branch.name⟩

/-! ## The lookup orchestration -/

/-- Constructor options of `CepLookup` that affect the modelled behaviour
(`retryDelay` and `logger` only influence wall-clock timing and debug
output, not results, and are omitted).  Defaults as in the source. -/
structure LookupConfig where
  providers : List ProviderSpec
  rateLimit : Option RateLimitOptions := none
  staggerDelay : Nat := 100
  retries : Nat := 0

/-- Mutable state owned by a `CepLookup` instance: the optional cache and
the rate-limiter timestamp list. -/
structure LookupState where
  cache : Option CacheState
  timestamps : List Int

/-- Observability events relevant to the claims (`failure` and timeout
events carry no information the claims need and are elided). -/
inductive LookupEvent where
  | cacheHit (cep : String)
  | success (provider : String) (cep : String)
  deriving Repr, DecidableEq

/-- Result of one `lookup` call: the settled value or error, the instance
state afterwards, the emitted events, and the number of fetcher invocations
(provider dispatches) the call performed. -/
structure LookupResult (T : Type) where
  result : Except CepError T
  state : LookupState
  events : List LookupEvent
  fetches : Nat

/-- Errors the retry loop of `lookup` rethrows without retrying. -/
def nonRetryable : CepError → Bool
  | .validation _ => true
  | .rateLimit _ _ => true
  | _ => false

/-- The retry loop of `lookup` over `maxAttempts = 1 + retries` attempts.
Provider behaviour is attempt-independent here, so each attempt reproduces
the same race; the loop returns the first success, rethrows a non-retryable
error at once, and otherwise exhausts the budget and throws the last error.
The second component counts the fetch dispatches across all attempts. -/
def attemptLoop (rc : RaceOutput) : Nat → Except CepError Address × Nat
  | 0 => (rc.result, 0)
  | n + 1 =>
    match rc.result with
    | .ok a => (.ok a, rc.dispatchedNames.length)
    | .error e =>
      if nonRetryable e ∨ n = 0 then (.error e, rc.dispatchedNames.length)
      else
        let next := attemptLoop rc n
        (next.1, rc.dispatchedNames.length + next.2)

/-- Model of `CepLookup.lookup`: rate-limit admission first, then strict
validation, then the cache probe (a hit emits `cache:hit` and returns the
cached address through the mapper, bypassing the race), then the retried
provider race; a race winner is sanitized inside the race, stored in the
cache when one is configured, reported through a `success` event and
returned through the mapper. -/
def lookupModel {T : Type} (cfg : LookupConfig) (st : LookupState)
    (now : Int) (cep : String) (mapper : Address → T) : LookupResult T :=
  let rlc := checkRateLimit cfg.rateLimit st.timestamps now
  match rlc.rejected with
  | some e => ⟨.error e, { st with timestamps := rlc.timestamps }, [], 0⟩
  | none =>
    let st := { st with timestamps := rlc.timestamps }
    match validateCep cep with
    | .error e => ⟨.error e, st, [], 0⟩
    | .ok cleaned =>
      let probe : Option Address × Option CacheState :=
        match st.cache with
        | some c =>
          let (hit, c') := cacheGet c cleaned now
          (hit, some c')
        | none => (none, none)
      match probe.1 with
      | some a =>
        ⟨.ok (mapper a), { st with cache := probe.2 }, [.cacheHit cleaned], 0⟩
      | none =>
        let st := { st with cache := probe.2 }
        let rc := raceProviders cfg.providers cfg.staggerDelay
        let (res, fetches) := attemptLoop rc (1 + cfg.retries)
        match res with
        | .ok a =>
          ⟨.ok (mapper a),
            { st with cache := st.cache.map (fun c => cacheSet c cleaned a now) },
            [.success (rc.winnerName.getD "") cleaned], fetches⟩
        | .error e => ⟨.error e, st, [], fetches⟩

/-! ## Helper lemmas -/

theorem ne_hyphen_of_isDigit {c : Char} (h : c.isDigit = true) : ¬ c = '-' := by
  intro hc
  subst hc
  exact absurd h (by decide)

theorem removeFirstHyphen_eq_self {l : List Char} (h : '-' ∉ l) :
    removeFirstHyphen l = l := by
  induction l with
  | nil => rfl
  | cons c cs ih =>
    simp only [List.mem_cons, not_or] at h
    have hc : ¬ c = '-' := fun hh => h.1 hh.symm
    simp only [removeFirstHyphen, if_neg hc, ih h.2]

theorem removeFirstHyphen_append {a : List Char} (b : List Char)
    (h : '-' ∉ a) : removeFirstHyphen (a ++ '-' :: b) = a ++ b := by
  induction a with
  | nil => simp [removeFirstHyphen]
  | cons c cs ih =>
    simp only [List.mem_cons, not_or] at h
    have hc : ¬ c = '-' := fun hh => h.1 hh.symm
    simp only [List.cons_append, removeFirstHyphen, List.append_eq,
      if_neg hc, ih h.2]

theorem filter_hyphen_eq_self {l : List Char} (h : '-' ∉ l) :
    l.filter (fun c => c != '-') = l := by
  refine List.filter_eq_self.mpr (fun c hc => ?_)
  have hne : ¬ c = '-' := fun hcc => h (hcc ▸ hc)
  simp [hne]

/-- The anchored regex of `validateCep` accepts exactly the two textual
shapes named by the spec. -/
theorem cepRegexTest_iff {l : List Char} :
    cepRegexTest l = true ↔ SpecCepShape l := by
  constructor
  · intro h
    simp only [cepRegexTest, Bool.or_eq_true, Bool.and_eq_true,
      decide_eq_true_eq, List.all_eq_true] at h
    rcases h with ⟨h8, hd⟩ | ⟨⟨⟨h9, h5⟩, hget⟩, h6⟩
    · exact Or.inl ⟨h8, hd⟩
    · refine Or.inr ⟨l.take 5, l.drop 6, ?_, ?_, h5, ?_, h6⟩
      · have h5lt : 5 < l.length := by omega
        have hdrop : l.drop 5 = l[5] :: l.drop 6 :=
          List.drop_eq_getElem_cons h5lt
        have hget' : l[5]? = some '-' := by
          rw [← List.get?_eq_getElem? l 5]; exact hget
        obtain ⟨_, hcv⟩ := List.getElem?_eq_some.mp hget'
        calc l = l.take 5 ++ l.drop 5 := (List.take_append_drop 5 l).symm
          _ = l.take 5 ++ '-' :: l.drop 6 := by rw [hdrop, hcv]
      · rw [List.length_take]; omega
      · rw [List.length_drop]; omega
  · intro h
    simp only [cepRegexTest, Bool.or_eq_true, Bool.and_eq_true,
      decide_eq_true_eq, List.all_eq_true]
    rcases h with ⟨h8, hd⟩ | ⟨a, b, rfl, ha5, had, hb3, hbd⟩
    · exact Or.inl ⟨h8, hd⟩
    · have hlen : (a ++ '-' :: b).length = 9 := by
        simp [List.length_append, ha5, hb3]
      refine Or.inr ⟨⟨⟨hlen, ?_⟩, ?_⟩, ?_⟩
      · have : (a ++ '-' :: b).take 5 = a := by
          rw [← ha5]; exact List.take_left a ('-' :: b)
        rw [this]; exact had
      · rw [List.get?_eq_getElem?,
          List.getElem?_append_right (by omega : a.length ≤ 5), ha5]
        simp
      · have : (a ++ '-' :: b).drop 6 = b := by
          have h₁ : a ++ '-' :: b = (a ++ ['-']) ++ b := by simp
          have h₂ : (a ++ ['-']).length = 6 := by simp [ha5]
          rw [h₁, ← h₂]; exact List.drop_left (a ++ ['-']) b
        rw [this]; exact hbd

/-- On an accepted input, removing the first hyphen agrees with filtering
every hyphen out, and yields exactly eight digits. -/
theorem removeFirstHyphen_spec {l : List Char} (h : cepRegexTest l = true) :
    removeFirstHyphen l = l.filter (fun c => c != '-') ∧
    (removeFirstHyphen l).length = 8 ∧
    (removeFirstHyphen l).all Char.isDigit = true := by
  rcases cepRegexTest_iff.mp h with ⟨h8, hd⟩ | ⟨a, b, rfl, ha5, had, hb3, hbd⟩
  · have hnm : '-' ∉ l := fun hm => ne_hyphen_of_isDigit (hd _ hm) rfl
    rw [removeFirstHyphen_eq_self hnm, filter_hyphen_eq_self hnm]
    exact ⟨rfl, h8, List.all_eq_true.mpr hd⟩
  · have hna : '-' ∉ a := fun hm => ne_hyphen_of_isDigit (had _ hm) rfl
    have hnb : '-' ∉ b := fun hm => ne_hyphen_of_isDigit (hbd _ hm) rfl
    rw [removeFirstHyphen_append b hna]
    refine ⟨?_, by simp [ha5, hb3], ?_⟩
    · rw [List.filter_append]
      simp only [List.filter_cons, bne_self_eq_false, if_neg]
      · rw [filter_hyphen_eq_self hna, filter_hyphen_eq_self hnb]
        simp
    · refine List.all_eq_true.mpr (fun c hc => ?_)
      rcases List.mem_append.mp hc with hca | hcb
      · exact had c hca
      · exact hbd c hcb

theorem validateCep_isOk_eq (s : String) :
    (validateCep s).isOk = cepRegexTest s.data := by
  unfold validateCep
  by_cases h : cepRegexTest s.data <;> simp [h, Except.isOk, Except.toBool]

theorem validateCep_invalid {s : String} (h : cepRegexTest s.data = false) :
    validateCep s = .error (.validation s) := by
  simp [validateCep, h]

/-- Reduction of `lookup` on an input rejected by the validator, under an
admitting rate limiter: the call settles with the validation error, having
touched neither the cache nor any provider. -/
theorem lookupModel_invalid {T : Type} (cfg : LookupConfig)
    (st : LookupState) (now : Int) (cep : String) (mapper : Address → T)
    (hrl : (checkRateLimit cfg.rateLimit st.timestamps now).rejected = none)
    (hv : validateCep cep = .error (.validation cep)) :
    lookupModel cfg st now cep mapper =
      ⟨.error (.validation cep),
        { st with
            timestamps := (checkRateLimit cfg.rateLimit st.timestamps now).timestamps },
        [], 0⟩ := by
  simp only [lookupModel, hrl, hv]

/-- Reduction of `lookup` on a cache hit, under an admitting rate limiter:
the cached address is returned through the mapper, `cache:hit` is emitted
and no provider is dispatched. -/
theorem lookupModel_cacheHit {T : Type} (cfg : LookupConfig)
    (st : LookupState) (now : Int) (cep : String) (mapper : Address → T)
    {cleaned : String} {a : Address} {c c' : CacheState}
    (hrl : (checkRateLimit cfg.rateLimit st.timestamps now).rejected = none)
    (hv : validateCep cep = .ok cleaned)
    (hc : st.cache = some c)
    (hget : cacheGet c cleaned now = (some a, c')) :
    lookupModel cfg st now cep mapper =
      ⟨.ok (mapper a),
        ⟨some c', (checkRateLimit cfg.rateLimit st.timestamps now).timestamps⟩,
        [.cacheHit cleaned], 0⟩ := by
  simp only [lookupModel, hrl, hv, hc, hget]

theorem attemptLoop_ok (rc : RaceOutput) {a : Address}
    (h : rc.result = .ok a) (n : Nat) :
    attemptLoop rc (n + 1) = (.ok a, rc.dispatchedNames.length) := by
  simp [attemptLoop, h]

theorem attemptLoop_error_retryable (rc : RaceOutput) {e : CepError}
    (h : rc.result = .error e) (hr : nonRetryable e = false) (n : Nat) :
    attemptLoop rc (n + 1) = (.error e, (n + 1) * rc.dispatchedNames.length) := by
  induction n with
  | zero => simp [attemptLoop, h, hr]
  | succ m ih =>
    have hcond : ¬ (nonRetryable e = true ∨ m + 1 = 0) := by simp [hr]
    have step : attemptLoop rc (m + 1 + 1) =
        ((attemptLoop rc (m + 1)).1,
          rc.dispatchedNames.length + (attemptLoop rc (m + 1)).2) := by
      rw [attemptLoop.eq_def]
      simp only [h, if_neg hcond]
    rw [step, ih]
    refine Prod.ext rfl ?_
    simp only
    ring

/-- Reduction of `lookup` on a cache miss whose race succeeds: the
sanitized winner is stored in the cache, a `success` event is emitted, and
the winner flows to the caller through the mapper. -/
theorem lookupModel_missSuccess {T : Type} (cfg : LookupConfig)
    (st : LookupState) (now : Int) (cep : String) (mapper : Address → T)
    {cleaned : String} {a : Address} {c c' : CacheState}
    (hrl : (checkRateLimit cfg.rateLimit st.timestamps now).rejected = none)
    (hv : validateCep cep = .ok cleaned)
    (hc : st.cache = some c)
    (hget : cacheGet c cleaned now = (none, c'))
    (hrace : (raceProviders cfg.providers cfg.staggerDelay).result = .ok a) :
    lookupModel cfg st now cep mapper =
      ⟨.ok (mapper a),
        ⟨some (cacheSet c' cleaned a now),
          (checkRateLimit cfg.rateLimit st.timestamps now).timestamps⟩,
        [.success ((raceProviders cfg.providers cfg.staggerDelay).winnerName.getD "") cleaned],
        (raceProviders cfg.providers cfg.staggerDelay).dispatchedNames.length⟩ := by
  have hn : 1 + cfg.retries = cfg.retries + 1 := Nat.add_comm 1 cfg.retries
  simp only [lookupModel, hrl, hv, hc, hget, hn,
    attemptLoop_ok _ hrace, Option.map_some']

/-- Reduction of `lookup` without a cache whose race succeeds. -/
theorem lookupModel_noCacheSuccess {T : Type} (cfg : LookupConfig)
    (st : LookupState) (now : Int) (cep : String) (mapper : Address → T)
    {cleaned : String} {a : Address}
    (hrl : (checkRateLimit cfg.rateLimit st.timestamps now).rejected = none)
    (hv : validateCep cep = .ok cleaned)
    (hc : st.cache = none)
    (hrace : (raceProviders cfg.providers cfg.staggerDelay).result = .ok a) :
    lookupModel cfg st now cep mapper =
      ⟨.ok (mapper a),
        ⟨none, (checkRateLimit cfg.rateLimit st.timestamps now).timestamps⟩,
        [.success ((raceProviders cfg.providers cfg.staggerDelay).winnerName.getD "") cleaned],
        (raceProviders cfg.providers cfg.staggerDelay).dispatchedNames.length⟩ := by
  have hn : 1 + cfg.retries = cfg.retries + 1 := Nat.add_comm 1 cfg.retries
  simp only [lookupModel, hrl, hv, hc, hn,
    attemptLoop_ok _ hrace, Option.map_none']

/-- Reduction of `lookup` without a cache whose race fails with a retryable
error: the retry loop replays the race over the whole budget and rethrows
the final error. -/
theorem lookupModel_noCacheError {T : Type} (cfg : LookupConfig)
    (st : LookupState) (now : Int) (cep : String) (mapper : Address → T)
    {cleaned : String} {e : CepError}
    (hrl : (checkRateLimit cfg.rateLimit st.timestamps now).rejected = none)
    (hv : validateCep cep = .ok cleaned)
    (hc : st.cache = none)
    (hrace : (raceProviders cfg.providers cfg.staggerDelay).result = .error e)
    (hr : nonRetryable e = false) :
    lookupModel cfg st now cep mapper =
      ⟨.error e,
        ⟨none, (checkRateLimit cfg.rateLimit st.timestamps now).timestamps⟩,
        [], (cfg.retries + 1) *
          (raceProviders cfg.providers cfg.staggerDelay).dispatchedNames.length⟩ := by
  have hn : 1 + cfg.retries = cfg.retries + 1 := Nat.add_comm 1 cfg.retries
  simp only [lookupModel, hrl, hv, hc, hn,
    attemptLoop_error_retryable _ hrace hr]

/-! ## Claim theorems -/

/-- Claim C4: for every input string, validation succeeds exactly when the
input is eight contiguous digits or five digits, a hyphen and three digits;
on success it returns the hyphen-stripped eight-digit canonical form; on
every other shape it fails with `CepValidationError`, and a `lookup` of such
an input (past rate-limit admission) settles with that error before any
cache or provider work: zero fetches, cache untouched, no events. -/
theorem claim_C4 (s : String) :
    ((validateCep s).isOk = true ↔ SpecCepShape s.data) ∧
    (∀ out, validateCep s = .ok out →
      out.data = s.data.filter (fun c => c != '-') ∧
      out.data.length = 8 ∧ out.data.all Char.isDigit = true) ∧
    (¬ SpecCepShape s.data →
      validateCep s = .error (.validation s) ∧
      ∀ (cfg : LookupConfig) (st : LookupState) (now : Int),
        (checkRateLimit cfg.rateLimit st.timestamps now).rejected = none →
        (lookupModel cfg st now s id).result = .error (.validation s) ∧
        (lookupModel cfg st now s id).fetches = 0 ∧
        (lookupModel cfg st now s id).state.cache = st.cache ∧
        (lookupModel cfg st now s id).events = []) := by
  refine ⟨?_, ?_, ?_⟩
  · rw [validateCep_isOk_eq]; exact cepRegexTest_iff
  · intro out hout
    by_cases h : cepRegexTest s.data
    · have : out = String.mk (removeFirstHyphen s.data) := by
        simp [validateCep, h] at hout; exact hout.symm
      subst this
      exact removeFirstHyphen_spec h
    · simp [validateCep, h] at hout
  · intro hns
    have h : cepRegexTest s.data = false := by
      by_cases h : cepRegexTest s.data
      · exact absurd (cepRegexTest_iff.mp h) hns
      · simpa using h
    have hv := validateCep_invalid h
    refine ⟨hv, fun cfg st now hrl => ?_⟩
    rw [lookupModel_invalid cfg st now s id hrl hv]
    exact ⟨rfl, rfl, rfl, rfl⟩

/-- Raw ViaCEP response shape consumed by `viaCepProvider.transform`: the
fields the transform reads, with `erro` the truthiness of the not-found
marker. -/
structure ViaCepResponse where
  erro : Bool := false
  cep : String
  logradouro : String
  bairro : String
  localidade : String
  uf : String
  deriving Repr

/-- Model of `viaCepProvider.transform` from `providers/viacep.ts`: throw
on `erro`, otherwise copy the fields; `response.cep` is passed through
unchanged — this transform performs no hyphen removal. -/
def viaCepTransform (r : ViaCepResponse) : Except CepError Address :=
  if r.erro then .error (.generic "CEP not found")
  else .ok { cep := r.cep, state := r.uf, city := r.localidade,
             neighborhood := r.bairro, street := r.logradouro,
             service := "ViaCEP" }

/-- Concrete address fixture (the Praça da Sé address of the tests). -/
def addrSP : Address :=
  { cep := "01001000", state := "SP", city := "São Paulo",
    neighborhood := "Sé", street := "Praça da Sé", service := "ViaCEP" }

/-- Raw ViaCEP payload of the sanitization test: every field carries
surrounding whitespace and `cep` carries the hyphen. -/
def rawViaCepPadded : ViaCepResponse :=
  { cep := " 01001-000 ", logradouro := "  Praça da Sé  ",
    bairro := " Sé ", localidade := "São Paulo", uf := "SP" }

/-- A ViaCEP provider answering with `rawViaCepPadded` after 10ms. -/
def viaCepPaddedProvider : ProviderSpec :=
  { name := "ViaCEP", latency := 10, outcome := viaCepTransform rawViaCepPadded }

/-- The address the code under test actually produces for
`rawViaCepPadded`: all fields trimmed, hyphen kept in `cep`. -/
def addrHyphen : Address :=
  { cep := "01001-000", state := "SP", city := "São Paulo",
    neighborhood := "Sé", street := "Praça da Sé", service := "ViaCEP" }

/-- Witness for C4 at concrete inputs: the hyphenated form is accepted and
normalized, and a malformed input is rejected by `lookup` with no cache or
provider work. -/
theorem claim_C4_witness :
    ((validateCep "01001-000").isOk = true ↔ SpecCepShape "01001-000".data) ∧
    validateCep "12345 678" = .error (.validation "12345 678") ∧
    (lookupModel { providers := [] } ⟨none, []⟩ 0 "12345 678" id).fetches = 0 := by
  refine ⟨(claim_C4 "01001-000").1, ?_, ?_⟩
  · have hns : ¬ SpecCepShape "12345 678".data := fun hsp =>
      absurd ((claim_C4 "12345 678").1.mpr hsp) (by decide)
    exact ((claim_C4 "12345 678").2.2 hns).1
  · have hns : ¬ SpecCepShape "12345 678".data := fun hsp =>
      absurd ((claim_C4 "12345 678").1.mpr hsp) (by decide)
    exact ((((claim_C4 "12345 678").2.2 hns).2
      { providers := [] } ⟨none, []⟩ 0 rfl).2.1)

/-- Claim C7 counterexample: the claim asserts that on rejection "the
timestamp list is unchanged", but `checkRateLimit` reassigns the pruned
list before throwing.  With limit 1 per 1000ms, stored timestamps
`[0, 1500]` and `now = 2000`, the call is rejected yet the stored list
becomes `[1500]`, not `[0, 1500]`. -/
theorem claim_C7_cex :
    (checkRateLimit (some ⟨1, 1000⟩) [0, 1500] 2000).rejected.isSome = true ∧
    (checkRateLimit (some ⟨1, 1000⟩) [0, 1500] 2000).timestamps = [1500] ∧
    ¬ (checkRateLimit (some ⟨1, 1000⟩) [0, 1500] 2000).timestamps = [0, 1500] :=
  ⟨rfl, rfl, by decide⟩

/-- Claim C7 (amended): on every lookup against a rate-limited instance,
timestamps at or before `now - per` are pruned before any cache or network
work; if the pruned count reaches `requests` the call fails with
`RateLimitError` and no new timestamp is appended (the stored list is
exactly the pruned list); otherwise `now` is appended and the call
proceeds.  The limiter runs before the cache probe, so even a lookup that
is a cache hit consumes a permit, and at the limit it is rejected despite
the cached entry. -/
theorem claim_C7 (rl : RateLimitOptions) (ts : List Int) (now : Int) :
    ((ts.filter (fun t => t > now - rl.per)).length ≥ rl.requests →
      checkRateLimit (some rl) ts now =
        ⟨some (.rateLimit rl.requests rl.per),
          ts.filter (fun t => t > now - rl.per)⟩) ∧
    ((ts.filter (fun t => t > now - rl.per)).length < rl.requests →
      checkRateLimit (some rl) ts now =
        ⟨none, ts.filter (fun t => t > now - rl.per) ++ [now]⟩) ∧
    (∀ (cfg : LookupConfig) (st : LookupState) (cep cleaned : String)
        (a : Address) (c c' : CacheState),
      cfg.rateLimit = some rl → st.timestamps = ts → st.cache = some c →
      validateCep cep = .ok cleaned →
      cacheGet c cleaned now = (some a, c') →
      ((ts.filter (fun t => t > now - rl.per)).length < rl.requests →
        (lookupModel cfg st now cep id).result = .ok a ∧
        (lookupModel cfg st now cep id).fetches = 0 ∧
        (lookupModel cfg st now cep id).state.timestamps =
          ts.filter (fun t => t > now - rl.per) ++ [now]) ∧
      ((ts.filter (fun t => t > now - rl.per)).length ≥ rl.requests →
        (lookupModel cfg st now cep id).result =
          .error (.rateLimit rl.requests rl.per) ∧
        (lookupModel cfg st now cep id).fetches = 0 ∧
        (lookupModel cfg st now cep id).state.timestamps =
          ts.filter (fun t => t > now - rl.per))) := by
  refine ⟨fun hge => ?_, fun hlt => ?_, ?_⟩
  · simp [checkRateLimit, if_pos hge]
  · simp [checkRateLimit, Nat.not_le.mpr hlt]
  · intro cfg st cep cleaned a c c' hcfg hts hcache hv hget
    constructor
    · intro hlt
      have hrl : (checkRateLimit cfg.rateLimit st.timestamps now).rejected = none := by
        rw [hcfg, hts]; simp [checkRateLimit, Nat.not_le.mpr hlt]
      have htime : (checkRateLimit cfg.rateLimit st.timestamps now).timestamps =
          ts.filter (fun t => t > now - rl.per) ++ [now] := by
        rw [hcfg, hts]; simp [checkRateLimit, Nat.not_le.mpr hlt]
      rw [lookupModel_cacheHit cfg st now cep id hrl hv hcache hget]
      exact ⟨rfl, rfl, htime⟩
    · intro hge
      have hrl : (checkRateLimit cfg.rateLimit st.timestamps now).rejected =
          some (.rateLimit rl.requests rl.per) := by
        rw [hcfg, hts]; simp [checkRateLimit, if_pos hge]
      have htime : (checkRateLimit cfg.rateLimit st.timestamps now).timestamps =
          ts.filter (fun t => t > now - rl.per) := by
        rw [hcfg, hts]; simp [checkRateLimit, if_pos hge]
      refine ⟨?_, ?_, ?_⟩ <;> simp only [lookupModel, hrl]
      exact htime

/-- Witness for C7: with limit 2 per 1000ms, timestamps `[0, 1500]` and
`now = 2000`, the pruned count is 1, below the limit, so the call is
admitted and `now` is recorded; a cache hit under those conditions still
consumes the permit. -/
theorem claim_C7_witness :
    checkRateLimit (some ⟨2, 1000⟩) [0, 1500] 2000 = ⟨none, [1500, 2000]⟩ ∧
    (lookupModel
        { providers := [], rateLimit := some ⟨2, 1000⟩ }
        ⟨some ⟨[("01001000", ⟨addrSP, 0⟩)], none, none⟩, [0, 1500]⟩
        2000 "01001000" id).result = .ok addrSP ∧
    (lookupModel
        { providers := [], rateLimit := some ⟨2, 1000⟩ }
        ⟨some ⟨[("01001000", ⟨addrSP, 0⟩)], none, none⟩, [0, 1500]⟩
        2000 "01001000" id).state.timestamps = [1500, 2000] := by
  have h := claim_C7 ⟨2, 1000⟩ [0, 1500] 2000
  refine ⟨?_, ?_, ?_⟩
  · exact h.2.1 (by decide)
  · exact ((h.2.2 { providers := [], rateLimit := some ⟨2, 1000⟩ }
      ⟨some ⟨[("01001000", ⟨addrSP, 0⟩)], none, none⟩, [0, 1500]⟩
      "01001000" "01001000" addrSP
      ⟨[("01001000", ⟨addrSP, 0⟩)], none, none⟩
      ⟨[("01001000", ⟨addrSP, 0⟩)], none, none⟩
      rfl rfl rfl rfl rfl).1 (by decide)).1
  · exact ((h.2.2 { providers := [], rateLimit := some ⟨2, 1000⟩ }
      ⟨some ⟨[("01001000", ⟨addrSP, 0⟩)], none, none⟩, [0, 1500]⟩
      "01001000" "01001000" addrSP
      ⟨[("01001000", ⟨addrSP, 0⟩)], none, none⟩
      ⟨[("01001000", ⟨addrSP, 0⟩)], none, none⟩
      rfl rfl rfl rfl rfl).1 (by decide)).2.2

/-- Claim C3: after a provider transform, an address missing its `ddd` is
filled from the static state-to-DDD table keyed by the two-letter state
abbreviation; a provider-supplied `ddd` is kept verbatim and `ibge` is
never touched; the table covers exactly the 27 Brazilian federal units,
each mapped to a two-digit code. -/
theorem claim_C3 (a : Address) :
    (a.ddd = none → enrichAddress a = { a with ddd := dddLookup a.state }) ∧
    (∀ d, a.ddd = some d → enrichAddress a = a) ∧
    (enrichAddress a).ibge = a.ibge ∧
    dddByState.map Prod.fst = federalUnits ∧
    federalUnits.length = 27 ∧
    (∀ u ∈ federalUnits, ∃ d, dddLookup u = some d ∧
      d.length = 2 ∧ d.data.all Char.isDigit = true) := by
  refine ⟨fun h => ?_, fun d hd => ?_, ?_, rfl, rfl, ?_⟩
  · simp [enrichAddress, h]
  · simp [enrichAddress, hd]
  · cases h : a.ddd <;> simp [enrichAddress, h]
  · intro u hu
    fin_cases hu <;> exact ⟨_, rfl, rfl, rfl⟩

/-- Witness for C3: an address with no `ddd` and state `SP` is enriched
with the table entry `11`. -/
theorem claim_C3_witness :
    enrichAddress addrSP = { addrSP with ddd := some "11" } := by
  have h := (claim_C3 addrSP).1 rfl
  rw [h]
  rfl

theorem attemptLoop_error_nonretryable (rc : RaceOutput) {e : CepError}
    (h : rc.result = .error e) (hr : nonRetryable e = true) (n : Nat) :
    attemptLoop rc (n + 1) = (.error e, rc.dispatchedNames.length) := by
  cases n <;> simp [attemptLoop, h, hr]

theorem raceProviders_single_ok (p : ProviderSpec) (s : Nat) {a : Address}
    (ht : p.timeout = none) (ha : p.outcome = .ok a) :
    raceProviders [p] s = ⟨.ok (sanitizeAddress a), some p.name, [p.name], []⟩ := by
  simp [raceProviders, settleOutcome, ht, ha]

theorem raceProviders_single_error (p : ProviderSpec) (s : Nat) {e : CepError}
    (ht : p.timeout = none) (he : p.outcome = .error e) :
    raceProviders [p] s = ⟨.error e, none, [p.name], []⟩ := by
  simp [raceProviders, settleOutcome, ht, he]

theorem firstFulfilled_none {bs : List Branch}
    (h : ∀ b ∈ bs, b.outcome.isOk = false) : firstFulfilled bs = none := by
  induction bs with
  | nil => rfl
  | cons b bs ih =>
    have hb := h b (List.mem_cons_self b bs)
    have ht := fun x hx => h x (List.mem_cons_of_mem b hx)
    unfold firstFulfilled at ih ⊢
    simp only [List.foldl_cons, hb, Bool.false_eq_true, if_false]
    exact ih ht

/-- A multi-provider race in which every provider branch rejects: the
remaining providers are dispatched (a rejecting primary triggers them), no
branch fulfills, and the failure is the primary error together with the
nested aggregate of the remaining errors, in list order.  The dispatch
count doubles for the remaining providers exactly when the stagger timer
fired at or before the primary rejection, since the unguarded
`triggerOthers` then re-invokes their fetchers from the primary catch. -/
theorem raceProviders_allFail (p₀ q : ProviderSpec) (qs : List ProviderSpec)
    (s : Nat) (hfail : ∀ p ∈ p₀ :: q :: qs, (settleOutcome p).isOk = false) :
    (raceProviders (p₀ :: q :: qs) s).result =
      .error (.allFailed [branchError p₀, .aggregate ((q :: qs).map branchError)]) ∧
    (raceProviders (p₀ :: q :: qs) s).dispatchedNames.length =
      (qs.length + 2) + (if s ≤ settleTime p₀ then qs.length + 1 else 0) := by
  have hw : firstFulfilled (raceBranches p₀ (q :: qs) s) = none := by
    refine firstFulfilled_none (fun b hb => ?_)
    simp only [raceBranches, List.mem_cons] at hb
    rcases hb with rfl | hb
    · exact hfail p₀ (List.mem_cons_self _ _)
    · rcases hd : othersDispatched p₀ s with _ | _
      · rw [hd] at hb; simp at hb
      · rw [hd] at hb
        simp only [if_true, List.mem_map] at hb
        obtain ⟨p, hp, rfl⟩ := hb
        exact hfail p (List.mem_cons_of_mem _ hp)
  have hdisp : othersDispatched p₀ s = true := by
    unfold othersDispatched
    rw [hfail p₀ (List.mem_cons_self _ _)]
    simp
  have hret : retriggered p₀ (q :: qs) s = decide (s ≤ settleTime p₀) := by
    unfold retriggered
    rw [hw, hfail p₀ (List.mem_cons_self _ _)]
    simp
  constructor
  · simp only [raceProviders, hw]
  · simp only [raceProviders, hw]
    by_cases hss : s ≤ settleTime p₀
    · simp [secondBatch, hret, hss, raceBranches, hdisp]
      omega
    · simp [secondBatch, hret, hss, raceBranches, hdisp]

/-- Every fulfilled race result is a sanitized address: both the
single-provider arm and the multi-provider winner pass the transformed
address through `sanitizeAddress` before resolving. -/
theorem raceProviders_ok_sanitized (ps : List ProviderSpec) (s : Nat)
    {a : Address} (h : (raceProviders ps s).result = .ok a) :
    ∃ raw, a = sanitizeAddress raw := by
  match ps with
  | [] => simp [raceProviders] at h
  | [p] =>
    cases hq : settleOutcome p with
    | ok b =>
      simp only [raceProviders, hq, Except.ok.injEq] at h
      exact ⟨b, h.symm⟩
    | error e => simp [raceProviders, hq] at h
  | p₀ :: q :: qs =>
    cases hw : firstFulfilled (raceBranches p₀ (q :: qs) s) with
    | none =>
      simp only [raceProviders, hw] at h
      exact absurd h (by simp)
    | some w =>
      cases hwo : w.outcome with
      | ok b =>
        simp only [raceProviders, hw, hwo, Except.ok.injEq] at h
        exact ⟨b, h.symm⟩
      | error e =>
        simp only [raceProviders, hw, hwo] at h
        exact absurd h (by simp)

/-- Claim C5: when the instance is configured with exactly one provider and
that provider rejects, `lookup` rejects with that provider's own error
object, unwrapped — no aggregate — after the retry budget (if any) is
exhausted. -/
theorem claim_C5 (p : ProviderSpec) (e : CepError) (cfg : LookupConfig)
    (st : LookupState) (now : Int) (cep cleaned : String)
    (hp : cfg.providers = [p])
    (ht : p.timeout = none)
    (he : p.outcome = .error e)
    (hrl : (checkRateLimit cfg.rateLimit st.timestamps now).rejected = none)
    (hv : validateCep cep = .ok cleaned)
    (hc : st.cache = none) :
    (raceProviders cfg.providers cfg.staggerDelay).result = .error e ∧
    (lookupModel cfg st now cep id).result = .error e ∧
    (nonRetryable e = false →
      (lookupModel cfg st now cep id).fetches = cfg.retries + 1) := by
  have hrace : raceProviders cfg.providers cfg.staggerDelay =
      ⟨.error e, none, [p.name], []⟩ := by
    rw [hp]; exact raceProviders_single_error p cfg.staggerDelay ht he
  have hres : (raceProviders cfg.providers cfg.staggerDelay).result = .error e := by
    rw [hrace]
  refine ⟨hres, ?_, ?_⟩
  · by_cases hr : nonRetryable e
    · have hn : 1 + cfg.retries = cfg.retries + 1 := Nat.add_comm 1 cfg.retries
      simp only [lookupModel, hrl, hv, hc, hn,
        attemptLoop_error_nonretryable (raceProviders cfg.providers cfg.staggerDelay) hres hr]
    · rw [lookupModel_noCacheError cfg st now cep id hrl hv hc
        (by rw [hrace]) (by simpa using hr)]
  · intro hr
    rw [lookupModel_noCacheError cfg st now cep id hrl hv hc
      (by rw [hrace]) hr]
    simp [hrace]

/-- A mock provider that always fails with a network error. -/
def mockFailProvider : ProviderSpec :=
  ⟨"Mock", none, 5, .error (.generic "Network error")⟩

/-- A single-provider configuration over `mockFailProvider` with one retry. -/
def cfgMockFail : LookupConfig :=
  { providers := [mockFailProvider], retries := 1 }

/-- Witness for C5: a single mock provider failing with a network error; a
lookup with one retry rejects with exactly that error after two fetches. -/
theorem claim_C5_witness :
    (lookupModel cfgMockFail ⟨none, []⟩ 0 "01001000" id).result =
      .error (.generic "Network error") ∧
    (lookupModel cfgMockFail ⟨none, []⟩ 0 "01001000" id).fetches = 2 := by
  have h := claim_C5 mockFailProvider (.generic "Network error") cfgMockFail
    ⟨none, []⟩ 0 "01001000" "01001000" rfl rfl rfl rfl rfl rfl
  exact ⟨h.2.1, h.2.2 rfl⟩

/-- A mock provider named A failing with the error "ea". -/
def failProvA : ProviderSpec := ⟨"A", none, 10, .error (.generic "ea")⟩

/-- A mock provider named B failing with the error "eb". -/
def failProvB : ProviderSpec := ⟨"B", none, 10, .error (.generic "eb")⟩

/-- Claim C6 counterexample: with two providers both failing, the
`AllProvidersFailedError` list does not enumerate every provider's final
error — its second element is the nested `AggregateError` of the
`Promise.any` over the secondary providers, not provider B's error
itself. -/
theorem claim_C6_cex :
    (lookupModel { providers := [failProvA, failProvB] }
        ⟨none, []⟩ 0 "01001000" id).result =
      .error (.allFailed [.generic "ea", .aggregate [.generic "eb"]]) ∧
    ¬ ([CepError.generic "ea", .aggregate [.generic "eb"]] =
        [CepError.generic "ea", CepError.generic "eb"]) :=
  ⟨rfl, by simp⟩

/-- Claim C6 (amended): with two or more providers, when every provider
branch rejects in every attempt and the retry budget is exhausted,
`lookup` rejects with exactly one aggregate error
(`AllProvidersFailedError`) whose error list holds the primary provider's
final error followed by one nested `AggregateError` bundling the remaining
providers' final errors in list order; validation and rate-limit errors
are non-retryable (and are thrown before the retry loop), while the race's
aggregate failure is retried over the whole budget: per attempt the
primary is fetched once and each remaining provider once — or twice, when
the stagger timer fires at or before the primary rejection and the
unguarded `triggerOthers` re-dispatches them from the primary's catch. -/
theorem claim_C6 (p₀ q : ProviderSpec) (qs : List ProviderSpec)
    (cfg : LookupConfig) (st : LookupState) (now : Int) (cep cleaned : String)
    (hp : cfg.providers = p₀ :: q :: qs)
    (hfail : ∀ p ∈ p₀ :: q :: qs, (settleOutcome p).isOk = false)
    (hrl : (checkRateLimit cfg.rateLimit st.timestamps now).rejected = none)
    (hv : validateCep cep = .ok cleaned)
    (hc : st.cache = none) :
    (lookupModel cfg st now cep id).result =
      .error (.allFailed [branchError p₀, .aggregate ((q :: qs).map branchError)]) ∧
    (settleTime p₀ < cfg.staggerDelay →
      (lookupModel cfg st now cep id).fetches =
        (cfg.retries + 1) * (qs.length + 2)) ∧
    (cfg.staggerDelay ≤ settleTime p₀ →
      (lookupModel cfg st now cep id).fetches =
        (cfg.retries + 1) * (2 * qs.length + 3)) ∧
    nonRetryable
      (.allFailed [branchError p₀, .aggregate ((q :: qs).map branchError)]) = false ∧
    (∀ c', nonRetryable (.validation c') = true) ∧
    (∀ (r : Nat) (per : Int), nonRetryable (.rateLimit r per) = true) ∧
    (∀ (rc : RaceOutput) (e : CepError) (n : Nat), rc.result = .error e →
      nonRetryable e = true →
      attemptLoop rc (n + 1) = (.error e, rc.dispatchedNames.length)) := by
  have hrace := raceProviders_allFail p₀ q qs cfg.staggerDelay
    (by intro p hp'; exact hfail p hp')
  have hres : (raceProviders cfg.providers cfg.staggerDelay).result =
      .error (.allFailed [branchError p₀, .aggregate ((q :: qs).map branchError)]) := by
    rw [hp]; exact hrace.1
  have hlen : (raceProviders cfg.providers cfg.staggerDelay).dispatchedNames.length =
      (qs.length + 2) +
        (if cfg.staggerDelay ≤ settleTime p₀ then qs.length + 1 else 0) := by
    rw [hp]; exact hrace.2
  rw [lookupModel_noCacheError cfg st now cep id hrl hv hc hres rfl]
  refine ⟨rfl, ?_, ?_, rfl, fun _ => rfl, fun _ _ => rfl,
    fun rc e n h hr => attemptLoop_error_nonretryable rc h hr n⟩
  · intro hlt
    rw [hlen, if_neg (by omega)]
  · intro hge
    rw [hlen, if_pos hge]
    ring

/-- Witness for C6: two failing mock providers.  With one retry and the
default 100ms stagger (larger than the 10ms primary latency, so the timer
never fires before the rejection), four fetches happen over two attempts;
with `staggerDelay = 0` the timer fires first and the unguarded re-trigger
makes each attempt fetch the secondary twice, three fetches in one
attempt.  Both reject with the single nested aggregate. -/
theorem claim_C6_witness :
    (lookupModel { providers := [failProvA, failProvB], retries := 1 }
        ⟨none, []⟩ 0 "01001000" id).result =
      .error (.allFailed [.generic "ea", .aggregate [.generic "eb"]]) ∧
    (lookupModel { providers := [failProvA, failProvB], retries := 1 }
        ⟨none, []⟩ 0 "01001000" id).fetches = 4 ∧
    (lookupModel { providers := [failProvA, failProvB], staggerDelay := 0 }
        ⟨none, []⟩ 0 "01001000" id).result =
      .error (.allFailed [.generic "ea", .aggregate [.generic "eb"]]) ∧
    (lookupModel { providers := [failProvA, failProvB], staggerDelay := 0 }
        ⟨none, []⟩ 0 "01001000" id).fetches = 3 := by
  have hfail : ∀ p ∈ [failProvA, failProvB], (settleOutcome p).isOk = false := by
    intro p hp
    cases hp with
    | head => rfl
    | tail _ hp =>
      cases hp with
      | head => rfl
      | tail _ hp => cases hp
  have h₁ := claim_C6 failProvA failProvB []
    { providers := [failProvA, failProvB], retries := 1 }
    ⟨none, []⟩ 0 "01001000" "01001000" rfl hfail rfl rfl rfl
  have h₂ := claim_C6 failProvA failProvB []
    { providers := [failProvA, failProvB], staggerDelay := 0 }
    ⟨none, []⟩ 0 "01001000" "01001000" rfl hfail rfl rfl rfl
  exact ⟨h₁.1, h₁.2.1 (by decide), h₂.1, h₂.2.2.1 (by decide)⟩

theorem cacheSet_empty (cleaned : String) (v : Address) (now : Int) :
    cacheSet ⟨[], none, none⟩ cleaned v now = ⟨[(cleaned, ⟨v, now⟩)], none, none⟩ := by
  simp [cacheSet, List.lookup]

theorem cacheGet_single_hit (cleaned : String) (v : Address) (t now : Int) :
    cacheGet ⟨[(cleaned, ⟨v, t⟩)], none, none⟩ cleaned now =
      (some v, ⟨[(cleaned, ⟨v, t⟩)], none, none⟩) := by
  simp [cacheGet, List.lookup]

/-- The two successive lookups of the idempotence claim: a first call on a
fresh instance with an empty default cache, then a second call on the
resulting state. -/
def lookupTwice (cfg : LookupConfig) (now₁ now₂ : Int) (cep : String) :
    LookupResult Address × LookupResult Address :=
  let r₁ := lookupModel cfg ⟨some ⟨[], none, none⟩, []⟩ now₁ cep id
  (r₁, lookupModel cfg r₁.state now₂ cep id)

/-- Claim C8: on an instance with a (fresh, no-TTL) cache and a single
fulfilling provider, two successive lookups of the same key issue exactly
one provider dispatch in total: the first call dispatches once and stores
the sanitized address; the second call returns that address from the cache
with zero dispatches, emitting `cache:hit`. -/
theorem claim_C8 (cfg : LookupConfig) (p : ProviderSpec) (a : Address)
    (cep cleaned : String) (now₁ now₂ : Int)
    (hp : cfg.providers = [p]) (hrt : cfg.rateLimit = none)
    (ht : p.timeout = none) (ha : p.outcome = .ok a)
    (hv : validateCep cep = .ok cleaned) :
    (lookupTwice cfg now₁ now₂ cep).1.result = .ok (sanitizeAddress a) ∧
    (lookupTwice cfg now₁ now₂ cep).1.fetches = 1 ∧
    (lookupTwice cfg now₁ now₂ cep).2.result = .ok (sanitizeAddress a) ∧
    (lookupTwice cfg now₁ now₂ cep).2.fetches = 0 ∧
    (lookupTwice cfg now₁ now₂ cep).2.events = [.cacheHit cleaned] ∧
    (lookupTwice cfg now₁ now₂ cep).1.fetches +
      (lookupTwice cfg now₁ now₂ cep).2.fetches = 1 := by
  have hraceFull : raceProviders cfg.providers cfg.staggerDelay =
      ⟨.ok (sanitizeAddress a), some p.name, [p.name], []⟩ := by
    rw [hp]; exact raceProviders_single_ok p cfg.staggerDelay ht ha
  have hrl₁ : (checkRateLimit cfg.rateLimit ([] : List Int) now₁).rejected = none := by
    rw [hrt]; rfl
  have hts₁ : (checkRateLimit cfg.rateLimit ([] : List Int) now₁).timestamps = [] := by
    rw [hrt]; rfl
  have h₁ := lookupModel_missSuccess cfg ⟨some ⟨[], none, none⟩, []⟩ now₁ cep id
    hrl₁ hv rfl rfl (by rw [hraceFull])
  rw [hts₁, cacheSet_empty, hraceFull] at h₁
  have hrl₂ : (checkRateLimit cfg.rateLimit ([] : List Int) now₂).rejected = none := by
    rw [hrt]; rfl
  have hts₂ : (checkRateLimit cfg.rateLimit ([] : List Int) now₂).timestamps = [] := by
    rw [hrt]; rfl
  have h₂ := lookupModel_cacheHit cfg
    ⟨some ⟨[(cleaned, ⟨sanitizeAddress a, now₁⟩)], none, none⟩, []⟩ now₂ cep id
    hrl₂ hv rfl (cacheGet_single_hit cleaned (sanitizeAddress a) now₁ now₂)
  rw [hts₂] at h₂
  simp [lookupTwice, h₁, h₂]

/-- Witness for C8: a ViaCEP-style provider fulfilling with the Praça da Sé
address; the two calls together dispatch once and the second is a cache
hit. -/
theorem claim_C8_witness :
    (lookupTwice { providers := [⟨"ViaCEP", none, 10, .ok addrSP⟩] }
        0 1000 "01001-000").1.fetches = 1 ∧
    (lookupTwice { providers := [⟨"ViaCEP", none, 10, .ok addrSP⟩] }
        0 1000 "01001-000").2.fetches = 0 ∧
    (lookupTwice { providers := [⟨"ViaCEP", none, 10, .ok addrSP⟩] }
        0 1000 "01001-000").2.events = [.cacheHit "01001000"] := by
  have h := claim_C8 { providers := [⟨"ViaCEP", none, 10, .ok addrSP⟩] }
    ⟨"ViaCEP", none, 10, .ok addrSP⟩ addrSP "01001-000" "01001000" 0 1000
    rfl rfl rfl rfl rfl
  exact ⟨h.2.1, h.2.2.2.1, h.2.2.2.2.1⟩

/-- Claim C10: the value `lookup` writes to the cache is the sanitized,
unmapped `Address` — the mapper shapes only the per-call return value, on
misses and on cache hits alike — and every fulfilled race value is in the
image of `sanitizeAddress`, so every value the code ever stores in the
cache is a canonical sanitized address. -/
theorem claim_C10 {T : Type} (cfg : LookupConfig) (st : LookupState)
    (now : Int) (cep cleaned : String) (mapper : Address → T)
    (c c' : CacheState) (a b : Address)
    (hrl : (checkRateLimit cfg.rateLimit st.timestamps now).rejected = none)
    (hv : validateCep cep = .ok cleaned)
    (hcache : st.cache = some c) :
    (cacheGet c cleaned now = (none, c') →
      (raceProviders cfg.providers cfg.staggerDelay).result = .ok a →
      (lookupModel cfg st now cep mapper).result = .ok (mapper a) ∧
      (lookupModel cfg st now cep mapper).state.cache =
        some (cacheSet c' cleaned a now) ∧
      ∃ raw, a = sanitizeAddress raw) ∧
    (cacheGet c cleaned now = (some b, c') →
      (lookupModel cfg st now cep mapper).result = .ok (mapper b) ∧
      (lookupModel cfg st now cep mapper).state.cache = some c') := by
  constructor
  · intro hget hres
    rw [lookupModel_missSuccess cfg st now cep mapper hrl hv hcache hget hres]
    exact ⟨rfl, rfl, raceProviders_ok_sanitized cfg.providers cfg.staggerDelay hres⟩
  · intro hget
    rw [lookupModel_cacheHit cfg st now cep mapper hrl hv hcache hget]
    exact ⟨rfl, rfl⟩

/-- Witness for C10: with a mapper extracting the `cep` string, a miss
stores the full sanitized address while the caller receives only the
mapped string, and a later hit maps the cached address again without
rewriting the cache. -/
theorem claim_C10_witness :
    (lookupModel { providers := [⟨"Mock", none, 5, .ok addrSP⟩] }
        ⟨some ⟨[], none, none⟩, []⟩ 0 "01001000" Address.cep).result =
      .ok (sanitizeAddress addrSP).cep ∧
    (lookupModel { providers := [⟨"Mock", none, 5, .ok addrSP⟩] }
        ⟨some ⟨[], none, none⟩, []⟩ 0 "01001000" Address.cep).state.cache =
      some (cacheSet ⟨[], none, none⟩ "01001000" (sanitizeAddress addrSP) 0) ∧
    (lookupModel { providers := [⟨"Mock", none, 5, .ok addrSP⟩] }
        ⟨some ⟨[("01001000", ⟨addrSP, 0⟩)], none, none⟩, []⟩ 5 "01001000"
        Address.cep).result = .ok addrSP.cep := by
  have h₁ := (claim_C10 { providers := [⟨"Mock", none, 5, .ok addrSP⟩] }
    ⟨some ⟨[], none, none⟩, []⟩ 0 "01001000" "01001000" Address.cep
    ⟨[], none, none⟩ ⟨[], none, none⟩ (sanitizeAddress addrSP) addrSP
    rfl rfl rfl).1 rfl rfl
  have h₂ := (claim_C10 { providers := [⟨"Mock", none, 5, .ok addrSP⟩] }
    ⟨some ⟨[("01001000", ⟨addrSP, 0⟩)], none, none⟩, []⟩ 5 "01001000" "01001000"
    Address.cep ⟨[("01001000", ⟨addrSP, 0⟩)], none, none⟩
    ⟨[("01001000", ⟨addrSP, 0⟩)], none, none⟩ (sanitizeAddress addrSP) addrSP
    rfl rfl rfl).2 rfl
  exact ⟨h₁.1, h₁.2.1, h₂.1⟩

/-- The Praça da Sé address as answered by the slower mock provider. -/
def addrSlow : Address := { addrSP with service := "Slow" }

/-- The Praça da Sé address as answered by the faster mock provider. -/
def addrFast : Address := { addrSP with service := "Fast" }

/-- Claim C2 counterexample, at `staggerDelay = 100 ≥ gap = 50`.  With the
slower (100ms) provider primary, the secondary is dispatched only at
100ms and settles at 150ms, so the race resolves with the SLOWER
provider's address, not the faster one's.  With the faster provider
primary, it settles at 50ms before the stagger timer fires, so the slower
provider is never dispatched at all — there is no slower in-flight request
for the abort signal to cancel. -/
theorem claim_C2_cex :
    (raceProviders [⟨"Slow", none, 100, .ok addrSlow⟩,
        ⟨"Fast", none, 50, .ok addrFast⟩] 100).winnerName = some "Slow" ∧
    (raceProviders [⟨"Slow", none, 100, .ok addrSlow⟩,
        ⟨"Fast", none, 50, .ok addrFast⟩] 100).result =
      .ok (sanitizeAddress addrSlow) ∧
    ¬ (sanitizeAddress addrSlow).service = "Fast" ∧
    (raceProviders [⟨"Fast", none, 50, .ok addrFast⟩,
        ⟨"Slow", none, 100, .ok addrSlow⟩] 100).winnerName = some "Fast" ∧
    (raceProviders [⟨"Fast", none, 50, .ok addrFast⟩,
        ⟨"Slow", none, 100, .ok addrSlow⟩] 100).dispatchedNames = ["Fast"] ∧
    (raceProviders [⟨"Fast", none, 50, .ok addrFast⟩,
        ⟨"Slow", none, 100, .ok addrSlow⟩] 100).cancelledNames = [] :=
  ⟨rfl, rfl, by decide, rfl, rfl, rfl⟩

/-- Claim C2 (amended): with provider latencies 100ms and 50ms and a
`staggerDelay` strictly LESS than their gap (50ms), whichever of the two
is primary, the race resolves with the faster provider's sanitized
address, the slower provider's already-dispatched in-flight request is
cancelled through the shared abort signal, and if both providers reject
the failure is the `AllProvidersFailedError` carrying the primary
rejection followed by the nested aggregate of the secondary rejection. -/
theorem claim_C2 (s : Nat) (hs : s < 50) (aF aS : Address) (e₀ e₁ : CepError) :
    (raceProviders [⟨"Slow", none, 100, .ok aS⟩,
        ⟨"Fast", none, 50, .ok aF⟩] s).result = .ok (sanitizeAddress aF) ∧
    (raceProviders [⟨"Slow", none, 100, .ok aS⟩,
        ⟨"Fast", none, 50, .ok aF⟩] s).winnerName = some "Fast" ∧
    (raceProviders [⟨"Slow", none, 100, .ok aS⟩,
        ⟨"Fast", none, 50, .ok aF⟩] s).cancelledNames = ["Slow"] ∧
    (raceProviders [⟨"Fast", none, 50, .ok aF⟩,
        ⟨"Slow", none, 100, .ok aS⟩] s).result = .ok (sanitizeAddress aF) ∧
    (raceProviders [⟨"Fast", none, 50, .ok aF⟩,
        ⟨"Slow", none, 100, .ok aS⟩] s).winnerName = some "Fast" ∧
    (raceProviders [⟨"Fast", none, 50, .ok aF⟩,
        ⟨"Slow", none, 100, .ok aS⟩] s).cancelledNames = ["Slow"] ∧
    (raceProviders [⟨"Slow", none, 100, .error e₀⟩,
        ⟨"Fast", none, 50, .error e₁⟩] s).result =
      .error (.allFailed [e₀, .aggregate [e₁]]) := by
  interval_cases s <;> exact ⟨rfl, rfl, rfl, rfl, rfl, rfl, rfl⟩

/-- Witness for C2 at `staggerDelay = 25 < 50`: the faster provider wins in
both arrangements and the slower in-flight request is cancelled. -/
theorem claim_C2_witness :
    (raceProviders [⟨"Slow", none, 100, .ok addrSlow⟩,
        ⟨"Fast", none, 50, .ok addrFast⟩] 25).result =
      .ok (sanitizeAddress addrFast) ∧
    (raceProviders [⟨"Slow", none, 100, .ok addrSlow⟩,
        ⟨"Fast", none, 50, .ok addrFast⟩] 25).cancelledNames = ["Slow"] ∧
    (raceProviders [⟨"Fast", none, 50, .ok addrFast⟩,
        ⟨"Slow", none, 100, .ok addrSlow⟩] 25).cancelledNames = ["Slow"] := by
  have h := claim_C2 25 (by decide) addrFast addrSlow
    (.generic "x") (.generic "y")
  exact ⟨h.1, h.2.2.1, h.2.2.2.2.2.1⟩

/-! ## Bulk lookup -/

/-- Result row of a bulk lookup (`BulkCepResult` in `types.ts`): `data` is
`Address | null` (modelled `Option`), `provider` and `error` are optional
properties. -/
structure BulkCepResult where
  cep : String
  data : Option Address
  provider : Option String := none
  error : Option CepError := none

/-- One worker iteration of `lookupCeps` on one input: the outcome of
`this.lookup(cep)` is recorded as a `data` row carrying the winning
service, or as an `error` row with `data: null`.  A resolved address
object is always truthy, so the `No address found` branch of the worker is
unreachable. -/
def bulkResult (f : String → Except CepError Address) (cep : String) :
    BulkCepResult :=
  match f cep with
  | .ok a => { cep := cep, data := some a, provider := some a.service }
  | .error e => { cep := cep, data := none, error := some e }

/-- Model of `CepLookup.lookupCeps` over a per-CEP lookup outcome `f`.
Empty or missing input returns `[]` before any work.  Otherwise
`Math.min(concurrency, ceps.length)` workers are spawned: with zero
workers (`concurrency = 0`) no index is ever claimed, `results` stays a
fully sparse array, and `results.filter(Boolean)` skips every hole,
returning `[]`.  With at least one worker, the workers pull indices from
one shared cursor, so each index is claimed by exactly one worker and
`results[currentIndex]` is written exactly once; the assembled array then
equals the per-index map of the single-lookup outcome whatever the
concurrency (which only bounds how many lookups are in flight), and the
final `filter(Boolean)` drops nothing because every slot holds an
object. -/
def lookupCeps (f : String → Except CepError Address) (ceps : List String)
    (concurrency : Nat) : List BulkCepResult :=
  if ceps.isEmpty then []
  else if min concurrency ceps.length = 0 then []
  else ceps.map (bulkResult f)

theorem bulkResult_cep (f : String → Except CepError Address) (x : String) :
    (bulkResult f x).cep = x := by
  unfold bulkResult
  cases f x <;> rfl

/-- Claim C9 counterexample: the claim quantifies over every `concurrency`
value, but the source spawns `Math.min(concurrency, ceps.length)`
workers: at `concurrency = 0` with nonempty input zero workers run, the
results array stays fully sparse, and `results.filter(Boolean)` returns
`[]` — not one result per input CEP. -/
theorem claim_C9_cex :
    lookupCeps (fun cp => .ok { addrSP with cep := cp }) ["11111111"] 0 = [] ∧
    ¬ ((lookupCeps (fun cp => .ok { addrSP with cep := cp }) ["11111111"] 0).length =
        (["11111111"] : List String).length) :=
  ⟨rfl, by decide⟩

/-- Claim C9 (amended): for every input list and every concurrency of at
least one, the bulk lookup returns exactly one result per input CEP, in
input-index order with `result[i].cep = ceps[i]`; in every row exactly one
of `data`/`error` is populated; empty input yields the empty array (that
last part for every concurrency). -/
theorem claim_C9 (f : String → Except CepError Address) (ceps : List String)
    (concurrency : Nat) (hc : 0 < concurrency) :
    (lookupCeps f ceps concurrency).length = ceps.length ∧
    (∀ i : Nat, (lookupCeps f ceps concurrency)[i]?.map (fun r => r.cep) =
      ceps[i]?) ∧
    (∀ r ∈ lookupCeps f ceps concurrency,
      (r.data.isSome = true ∧ r.error = none) ∨
      (r.data = none ∧ r.error.isSome = true)) ∧
    (ceps = [] → lookupCeps f ceps concurrency = []) := by
  by_cases hemp : ceps.isEmpty
  · have hnil : ceps = [] := List.isEmpty_iff.mp hemp
    subst hnil
    exact ⟨rfl, fun i => rfl, fun r hr => absurd hr (by simp [lookupCeps]),
      fun _ => rfl⟩
  · have hne : ceps ≠ [] := fun hn => hemp (by rw [hn]; rfl)
    have hpos : 0 < ceps.length := List.length_pos.mpr hne
    have heq : lookupCeps f ceps concurrency = ceps.map (bulkResult f) := by
      have h0 : ¬ min concurrency ceps.length = 0 := by omega
      simp [lookupCeps, hemp, h0]
    refine ⟨?_, ?_, ?_, ?_⟩
    · rw [heq, List.length_map]
    · intro i
      rw [heq, List.getElem?_map]
      cases hx : ceps[i]? with
      | none => rfl
      | some x => simp [bulkResult_cep]
    · intro r hr
      rw [heq, List.mem_map] at hr
      obtain ⟨x, _, rfl⟩ := hr
      cases hfx : f x with
      | ok a => exact Or.inl (by simp [bulkResult, hfx])
      | error e => exact Or.inr (by simp [bulkResult, hfx])
    · intro hnil
      exact absurd (by rw [hnil]; rfl) hemp

/-- Mocked bulk resolver of the spec scenario: fails on `00000000`,
succeeds elsewhere. -/
def mockBulkResolver : String → Except CepError Address :=
  fun cp => if cp = "00000000" then .error (.generic "CEP not found")
            else .ok { addrSP with cep := cp }

/-- Witness for C9 on the spec scenario `['11111111','00000000','33333333']`:
three rows in input order, the failing CEP yields the one error row, and
the empty input yields the empty array. -/
theorem claim_C9_witness :
    (lookupCeps mockBulkResolver ["11111111", "00000000", "33333333"] 5).length = 3 ∧
    (lookupCeps mockBulkResolver ["11111111", "00000000", "33333333"] 5)[1]?.map
      (fun r => r.cep) = some "00000000" ∧
    (bulkResult mockBulkResolver "00000000").data = none ∧
    (bulkResult mockBulkResolver "00000000").error.isSome = true ∧
    lookupCeps mockBulkResolver [] 5 = [] := by
  have h := claim_C9 mockBulkResolver ["11111111", "00000000", "33333333"] 5
    (by decide)
  have hmem : bulkResult mockBulkResolver "00000000" ∈
      lookupCeps mockBulkResolver ["11111111", "00000000", "33333333"] 5 := by
    rw [show lookupCeps mockBulkResolver ["11111111", "00000000", "33333333"] 5 =
      [bulkResult mockBulkResolver "11111111", bulkResult mockBulkResolver "00000000",
       bulkResult mockBulkResolver "33333333"] from rfl]
    exact List.mem_cons_of_mem _ (List.mem_cons_self _ _)
  have hx := h.2.2.1 (bulkResult mockBulkResolver "00000000") hmem
  rcases hx with ⟨hd, _⟩ | ⟨hd, he⟩
  · exact absurd hd (by decide)
  · exact ⟨h.1, h.2.1 1, hd, he,
      (claim_C9 mockBulkResolver [] 5 (by decide)).2.2.2 rfl⟩

/-- Claim C1 (code-bug evaluation): a lookup through the ViaCEP provider
whose raw response carries `cep` " 01001-000 " succeeds with every string
field trimmed, but both the returned address and the cached copy keep the
hyphen in `cep`: `sanitizeAddress` only trims, and the ViaCEP transform in
`providers/viacep.ts` passes `response.cep` through without the
`replace("-", "")` the other providers apply.  The package's own test
("should sanitize address fields by trimming whitespace") expects
`"01001000"` on exactly this input. -/
theorem claim_C1_bug :
    (lookupModel { providers := [viaCepPaddedProvider] }
        ⟨some ⟨[], none, none⟩, []⟩ 0 "01001-000" id).result = .ok addrHyphen ∧
    (lookupModel { providers := [viaCepPaddedProvider] }
        ⟨some ⟨[], none, none⟩, []⟩ 0 "01001-000" id).state.cache =
      some ⟨[("01001000", ⟨addrHyphen, 0⟩)], none, none⟩ ∧
    ¬ addrHyphen.cep = "01001000" :=
  ⟨rfl, rfl, by decide⟩

end CepSpec
